import Mathlib

/-!
Verification of the simulation core of the `pingis` repository
(`src/main.rs`): the arena-geometry functions, the startup spawns and the
fixed-timestep paddle-movement system `move_racket`.

Embedding conventions:
* `f32` values are modelled as exact rationals `ℚ`.  Every numeric value the
  verified claims touch is exactly representable, and the one product that
  matters, `RACKET_SPEED * TIME_STEP = 120.0 * (1.0/60.0)`, also evaluates to
  exactly `2.0` under IEEE-754 single precision, so the rational model agrees
  with the compiled arithmetic on these values.
* Bevy's `Quat` rotation is only ever set to the identity or to
  `Quat::from_rotation_z(90 * PI / 180)` and is never computed with, so a
  transform's rotation is recorded as the z-axis rotation angle in degrees
  (`0` for the identity, `90` for the rackets).
* The ECS world is a list of entities in spawn order; each entity carries the
  optional components the simulation core uses (`Player`, `Racket`, the `Ball`
  marker, `Transform`).  The camera and the `Sprite` colour data belong to the
  rendering boundary, which the spec scopes out, and are not modelled.
* The `assert!` calls in `WallLocation::size` are modelled by returning
  `Option`: `none` is the aborted computation.
-/

namespace Pingis

/-- Key codes: the subset of `bevy::KeyCode` the program uses
(`W`, `S`, `Up`, `Down`). -/
inductive KeyCode where
  | W
  | S
  | Up
  | Down

deriving instance DecidableEq for KeyCode

/-- Embeds `const TIME_STEP: f32 = 1.0 / 60.0`. -/
def TIME_STEP : ℚ := 1 / 60

/-- Embeds `const RACKET_SPEED: f32 = 120.0`. -/
def RACKET_SPEED : ℚ := 120

/-- Embeds `const RACKET_THICCNESS: f32 = 40.0`. -/
def RACKET_THICCNESS : ℚ := 40

/-- Embeds `const RACKET_WALL_OFFSET: f32 = 20.0`. -/
def RACKET_WALL_OFFSET : ℚ := 20

/-- Embeds `const WALL_THICKNESS: f32 = 30.0`. -/
def WALL_THICKNESS : ℚ := 30

/-- Embeds `const LEFT_WALL: f32 = -450.0`. -/
def LEFT_WALL : ℚ := -450

/-- Embeds `const RIGHT_WALL: f32 = 450.0`. -/
def RIGHT_WALL : ℚ := 450

/-- Embeds `const TOP_WALL: f32 = 250.0`. -/
def TOP_WALL : ℚ := 250

/-- Embeds `const BOTTOM_WALL: f32 = -250.0`. -/
def BOTTOM_WALL : ℚ := -250

/-- Embeds Bevy's `Vec2`. -/
structure Vec2 where
  x : ℚ
  y : ℚ

deriving instance DecidableEq for Vec2

/-- Embeds Bevy's `Vec3`. -/
structure Vec3 where
  x : ℚ
  y : ℚ
  z : ℚ

deriving instance DecidableEq for Vec3

/-- Embeds `Vec2::extend`: add a z-coordinate to a `Vec2`. -/
def Vec2.extend (v : Vec2) (z : ℚ) : Vec3 :=
  ⟨v.x, v.y, z⟩

/-- Embeds `const RACKET_SIZE: Vec3 = Vec3::new(120.0, RACKET_THICCNESS, 0.0)`. -/
def RACKET_SIZE : Vec3 := ⟨120, RACKET_THICCNESS, 0⟩

/-- Embeds Bevy's `Transform`; the rotation is recorded as the z-axis angle in
degrees (see the module docstring). -/
structure Transform where
  translation : Vec3
  rotation : ℚ
  scale : Vec3

deriving instance DecidableEq for Transform

/-- Embeds `Transform::default()`: identity transform. -/
def Transform.default : Transform := ⟨⟨0, 0, 0⟩, 0, ⟨1, 1, 1⟩⟩

/-- Embeds `struct MovementKeys { up: KeyCode, down: KeyCode }`. -/
structure MovementKeys where
  up : KeyCode
  down : KeyCode

deriving instance DecidableEq for MovementKeys

/-- Embeds `struct Player { player_number: i32, movement_keys: MovementKeys }`. -/
structure Player where
  player_number : ℤ
  movement_keys : MovementKeys

deriving instance DecidableEq for Player

/-- Embeds `struct Racket { player_number: i32 }`. -/
structure Racket where
  player_number : ℤ

deriving instance DecidableEq for Racket

/-- Embeds `enum WallLocation { Left, Right, Bottom, Top }`. -/
inductive WallLocation where
  | Left
  | Right
  | Bottom
  | Top

deriving instance DecidableEq for WallLocation

/-- One ECS entity, carrying the optional components the simulation core
uses.  `ball` embeds presence of the `Ball` marker component. -/
structure Entity where
  player : Option Player
  racket : Option Racket
  ball : Bool
  transform : Option Transform

deriving instance DecidableEq for Entity

/-- Embeds `WallLocation::position`. -/
def WallLocation.position : WallLocation → Vec2
  | WallLocation.Left => ⟨LEFT_WALL, 0⟩
  | WallLocation.Right => ⟨RIGHT_WALL, 0⟩
  | WallLocation.Bottom => ⟨0, BOTTOM_WALL⟩
  | WallLocation.Top => ⟨0, TOP_WALL⟩

/-- Embeds `WallLocation::size`.  The two `assert!` calls become the `if`
guard: `none` models the aborted process. -/
def WallLocation.size (w : WallLocation) : Option Vec2 :=
  let arena_height := TOP_WALL - BOTTOM_WALL
  let arena_width := RIGHT_WALL - LEFT_WALL
  if 0 < arena_height ∧ 0 < arena_width then
    some (match w with
      | WallLocation.Left | WallLocation.Right =>
          ⟨WALL_THICKNESS, arena_height + WALL_THICKNESS⟩
      | WallLocation.Bottom | WallLocation.Top =>
          ⟨arena_width + WALL_THICKNESS, WALL_THICKNESS⟩)
  else
    none

/-- Embeds `WallBundle::new(location)`: the spawned wall entity, carrying only
a transform (the collider is commented out in the source; the sprite colour is
rendering data, out of scope).  Propagates the possible assertion failure of
`WallLocation::size`. -/
def WallBundle.new (location : WallLocation) : Option Entity :=
  (location.size).map (fun s =>
    ⟨none, none, false, some ⟨(location.position).extend 0, 0, s.extend 1⟩⟩)

/-- Embeds the entity spawned by `spawn_racket(commands, player2)`. -/
def spawn_racket (player2 : Bool) : Entity :=
  let racket_location : Vec3 :=
    if player2 then
      ⟨RIGHT_WALL - RACKET_THICCNESS - RACKET_WALL_OFFSET, 0, 0⟩
    else
      ⟨LEFT_WALL + RACKET_THICCNESS + RACKET_WALL_OFFSET, 0, 0⟩
  let player_number : ℤ := if player2 = true then 2 else 1
  ⟨none, some ⟨player_number⟩, false, some ⟨racket_location, 90, RACKET_SIZE⟩⟩

/-- Embeds the entity spawned by `spawn_ball(commands)`: `Ball` marker with
scale `BALL_SIZE = (30, 30, 0)` and translation
`BALL_STARTING_POSITION = (0, 0, 1)`. -/
def spawn_ball : Entity :=
  ⟨none, none, true, some ⟨⟨0, 0, 1⟩, 0, ⟨30, 30, 0⟩⟩⟩

/-- Embeds the `player1` value built in `setup`. -/
def player1 : Player := ⟨1, ⟨KeyCode.W, KeyCode.S⟩⟩

/-- Embeds the `player2` value built in `setup`. -/
def player2 : Player := ⟨2, ⟨KeyCode.Up, KeyCode.Down⟩⟩

/-- Embeds the `setup` startup system: the world after startup, as the list of
spawned entities in spawn order (player 1, player 2, racket of player 2,
racket of player 1, ball, then the four walls).  `none` models a wall
assertion failure during startup. -/
def setup : Option (List Entity) := do
  let wl ← WallBundle.new WallLocation.Left
  let wr ← WallBundle.new WallLocation.Right
  let wb ← WallBundle.new WallLocation.Bottom
  let wt ← WallBundle.new WallLocation.Top
  pure [⟨some player1, none, false, none⟩,
        ⟨some player2, none, false, none⟩,
        spawn_racket true,
        spawn_racket false,
        spawn_ball,
        wl, wr, wb, wt]

/-- Embeds the filter at the top of `move_racket`: the players for which the
up- or down-key is currently pressed, in entity-store order.  `pressed` is the
input oracle `keyboard_input.pressed`. -/
def players_who_moved (pressed : KeyCode → Bool) (w : List Entity) : List Player :=
  (w.filterMap Entity.player).filter
    (fun player => pressed player.movement_keys.up || pressed player.movement_keys.down)

/-- Embeds the body of the inner loop of `move_racket` for one player and one
entity: if the entity has a `Racket` with the player's number and a
`Transform`, add `direction * RACKET_SPEED * TIME_STEP` to its
translation's y, where `direction` is `1.0` if the player's up-key is pressed
and `-1.0` otherwise. -/
def stepEntity (pressed : KeyCode → Bool) (player : Player) (e : Entity) : Entity :=
  match e.racket, e.transform with
  | some racket, some transform =>
      if racket.player_number = player.player_number then
        let direction : ℚ := if pressed player.movement_keys.up then 1 else -1
        let new_position := transform.translation.y + direction * RACKET_SPEED * TIME_STEP
        let new_translation := { transform.translation with y := new_position }
        { e with transform := some { transform with translation := new_translation } }
      else e
  | _, _ => e

/-- Embeds one iteration of the outer loop of `move_racket`: update every
racket entity matching the given player. -/
def move_racket_player (pressed : KeyCode → Bool) (player : Player)
    (w : List Entity) : List Entity :=
  w.map (stepEntity pressed player)

/-- Embeds the `move_racket` system: one execution of the fixed-timestep
movement update on the world, given the input oracle `pressed`. -/
def move_racket (pressed : KeyCode → Bool) (w : List Entity) : List Entity :=
  if (players_who_moved pressed w).length < 1 then w
  else
    (players_who_moved pressed w).foldl
      (fun acc player => move_racket_player pressed player acc) w

/-- A sequence of fixed-timestep ticks, one input oracle per tick (the tick
scheduler runs `move_racket` once per tick). -/
def ticks (inputs : List (KeyCode → Bool)) (w : List Entity) : List Entity :=
  inputs.foldl (fun acc pressed => move_racket pressed acc) w

/-- The `Player` components present in the world, in entity-store order. -/
def playersOf (w : List Entity) : List Player :=
  w.filterMap Entity.player

/-- The composite per-entity effect of running the inner update for each
player of `ps` in order. -/
def applyPlayers (pressed : KeyCode → Bool) (ps : List Player) (e : Entity) : Entity :=
  ps.foldl (fun a p => stepEntity pressed p a) e

/-- Forget the y-translation of a transform. -/
def Transform.eraseY (t : Transform) : Transform :=
  { t with translation := { t.translation with y := 0 } }

/-- Forget the y-translation of an entity's transform (used to state that the
movement update changes nothing but y-translations). -/
def eraseY (e : Entity) : Entity :=
  { e with transform := e.transform.map Transform.eraseY }

/-- The per-entity update leaves every component except the transform
untouched; in particular the racket component is preserved. -/
theorem stepEntity_racket (pressed : KeyCode → Bool) (p : Player) (e : Entity) :
    (stepEntity pressed p e).racket = e.racket := by
  unfold stepEntity
  rcases e with ⟨pl, r, b, t⟩
  rcases r with _ | r <;> rcases t with _ | t <;> simp
  split <;> rfl

/-- An entity without a racket component is fixed by the per-entity update. -/
theorem stepEntity_of_racket_none (pressed : KeyCode → Bool) (p : Player)
    (e : Entity) (h : e.racket = none) : stepEntity pressed p e = e := by
  unfold stepEntity
  rcases e with ⟨pl, r, b, t⟩
  simp only at h
  subst h
  rcases t with _ | t <;> rfl

/-- A racket entity whose player number differs from the updated player's is
fixed by the per-entity update. -/
theorem stepEntity_of_ne (pressed : KeyCode → Bool) (p : Player) (e : Entity)
    (r : Racket) (hr : e.racket = some r)
    (hn : r.player_number ≠ p.player_number) : stepEntity pressed p e = e := by
  unfold stepEntity
  rcases e with ⟨pl, r', b, t⟩
  simp only at hr
  subst hr
  rcases t with _ | t
  · rfl
  · simp [hn]

/-- A racket entity matching the updated player gets exactly the source's
update `new_y = old_y + direction * RACKET_SPEED * TIME_STEP`. -/
theorem stepEntity_of_eq (pressed : KeyCode → Bool) (p : Player) (e : Entity)
    (r : Racket) (t : Transform) (hr : e.racket = some r)
    (ht : e.transform = some t) (hn : r.player_number = p.player_number) :
    stepEntity pressed p e =
      { e with transform := some { t with translation :=
          { t.translation with y := t.translation.y +
              (if pressed p.movement_keys.up then (1 : ℚ) else -1) *
                RACKET_SPEED * TIME_STEP } } } := by
  unfold stepEntity
  rcases e with ⟨pl, r', b, t'⟩
  simp only at hr ht
  subst hr
  subst ht
  simp [hn]

/-- An entity without a racket component is fixed by any sequence of
per-entity updates. -/
theorem applyPlayers_of_racket_none (pressed : KeyCode → Bool)
    (ps : List Player) (e : Entity) (h : e.racket = none) :
    applyPlayers pressed ps e = e := by
  induction ps with
  | nil => rfl
  | cons p ps ih =>
      unfold applyPlayers
      rw [List.foldl_cons, stepEntity_of_racket_none pressed p e h]
      exact ih

/-- Folding the per-player pass over a list of players is the pointwise
composite per-entity update. -/
theorem foldl_move_racket_player (pressed : KeyCode → Bool) (ps : List Player)
    (w : List Entity) :
    ps.foldl (fun acc p => move_racket_player pressed p acc) w =
      w.map (applyPlayers pressed ps) := by
  induction ps generalizing w with
  | nil =>
      have h1 : applyPlayers pressed ([] : List Player) = id := rfl
      rw [h1, List.map_id]
      rfl
  | cons p ps ih =>
      rw [List.foldl_cons]
      rw [show move_racket_player pressed p w = w.map (stepEntity pressed p) from rfl]
      rw [ih, List.map_map]
      rfl

/-- The movement update is the pointwise composite update for the moved
players, applied to every entity. -/
theorem move_racket_eq_map (pressed : KeyCode → Bool) (w : List Entity) :
    move_racket pressed w =
      w.map (applyPlayers pressed (players_who_moved pressed w)) := by
  unfold move_racket
  split
  · next h =>
      have hnil : players_who_moved pressed w = [] := by
        have := Nat.lt_one_iff.mp h
        exact List.length_eq_zero.mp this
      rw [hnil]
      have h1 : applyPlayers pressed ([] : List Player) = id := rfl
      rw [h1, List.map_id]
  · exact foldl_move_racket_player pressed (players_who_moved pressed w) w

/-- Entity-wise description of the movement update through optional
indexing. -/
theorem move_racket_getElem (pressed : KeyCode → Bool) (w : List Entity)
    (i : ℕ) :
    (move_racket pressed w)[i]? =
      (w[i]?).map (applyPlayers pressed (players_who_moved pressed w)) := by
  rw [move_racket_eq_map]
  exact List.getElem?_map (applyPlayers pressed (players_who_moved pressed w)) w i

/-- With the two startup players in the store, the moved players are the
filter of `[player1, player2]` by the input oracle. -/
theorem players_who_moved_canon (pressed : KeyCode → Bool) (w : List Entity)
    (hp : playersOf w = [player1, player2]) :
    players_who_moved pressed w =
      [player1, player2].filter
        (fun p => pressed p.movement_keys.up || pressed p.movement_keys.down) := by
  unfold players_who_moved
  rw [show w.filterMap Entity.player = playersOf w from rfl, hp]

/-- With the two startup players in the store, a racket entity whose number
matches an active player `q` is updated by exactly the source expression
`old_y + direction * RACKET_SPEED * TIME_STEP` in one movement update. -/
theorem move_racket_canon_moved (pressed : KeyCode → Bool) (w : List Entity)
    (i : ℕ) (e : Entity) (r : Racket) (t : Transform) (q : Player)
    (hp : playersOf w = [player1, player2])
    (hq : q = player1 ∨ q = player2)
    (hact : pressed q.movement_keys.up = true ∨ pressed q.movement_keys.down = true)
    (he : w[i]? = some e) (hr : e.racket = some r)
    (hn : r.player_number = q.player_number)
    (ht : e.transform = some t) :
    (move_racket pressed w)[i]? =
      some { e with transform := some { t with translation :=
        { t.translation with y := t.translation.y +
            (if pressed q.movement_keys.up then (1 : ℚ) else -1) *
              RACKET_SPEED * TIME_STEP } } } := by
  rw [move_racket_getElem, he, players_who_moved_canon pressed w hp]
  have hstep := stepEntity_of_eq pressed q e r t hr ht hn
  rcases hq with hq | hq
  · subst hq
    have hact1 : (pressed player1.movement_keys.up ||
        pressed player1.movement_keys.down) = true := by
      rcases hact with h | h <;> simp [h]
    have hne2 : r.player_number ≠ player2.player_number := by
      rw [hn]
      decide
    cases hact2 : (pressed player2.movement_keys.up ||
        pressed player2.movement_keys.down) with
    | false =>
        have hlist : List.filter
            (fun p => pressed p.movement_keys.up || pressed p.movement_keys.down)
            [player1, player2] = [player1] := by
          simp [List.filter_cons, hact1, hact2]
        rw [hlist, Option.map_some']
        rw [show applyPlayers pressed [player1] e = stepEntity pressed player1 e
          from rfl]
        rw [hstep]
    | true =>
        have hlist : List.filter
            (fun p => pressed p.movement_keys.up || pressed p.movement_keys.down)
            [player1, player2] = [player1, player2] := by
          simp [List.filter_cons, hact1, hact2]
        rw [hlist, Option.map_some']
        rw [show applyPlayers pressed [player1, player2] e =
          stepEntity pressed player2 (stepEntity pressed player1 e) from rfl]
        rw [stepEntity_of_ne pressed player2 (stepEntity pressed player1 e) r
          (by rw [stepEntity_racket]; exact hr) hne2]
        rw [hstep]
  · subst hq
    have hact2 : (pressed player2.movement_keys.up ||
        pressed player2.movement_keys.down) = true := by
      rcases hact with h | h <;> simp [h]
    have hne1 : r.player_number ≠ player1.player_number := by
      rw [hn]
      decide
    cases hact1 : (pressed player1.movement_keys.up ||
        pressed player1.movement_keys.down) with
    | false =>
        have hlist : List.filter
            (fun p => pressed p.movement_keys.up || pressed p.movement_keys.down)
            [player1, player2] = [player2] := by
          simp [List.filter_cons, hact1, hact2]
        rw [hlist, Option.map_some']
        rw [show applyPlayers pressed [player2] e = stepEntity pressed player2 e
          from rfl]
        rw [hstep]
    | true =>
        have hlist : List.filter
            (fun p => pressed p.movement_keys.up || pressed p.movement_keys.down)
            [player1, player2] = [player1, player2] := by
          simp [List.filter_cons, hact1, hact2]
        rw [hlist, Option.map_some']
        rw [show applyPlayers pressed [player1, player2] e =
          stepEntity pressed player2 (stepEntity pressed player1 e) from rfl]
        rw [stepEntity_of_ne pressed player1 e r hr hne1]
        rw [hstep]

/-- With the two startup players in the store, a racket entity whose number
matches an inactive player `q` is unchanged by one movement update. -/
theorem move_racket_canon_fixed (pressed : KeyCode → Bool) (w : List Entity)
    (i : ℕ) (e : Entity) (r : Racket) (q : Player)
    (hp : playersOf w = [player1, player2])
    (hq : q = player1 ∨ q = player2)
    (hup : pressed q.movement_keys.up = false)
    (hdn : pressed q.movement_keys.down = false)
    (he : w[i]? = some e) (hr : e.racket = some r)
    (hn : r.player_number = q.player_number) :
    (move_racket pressed w)[i]? = some e := by
  rw [move_racket_getElem, he, players_who_moved_canon pressed w hp]
  rcases hq with hq | hq
  · subst hq
    have hact1 : (pressed player1.movement_keys.up ||
        pressed player1.movement_keys.down) = false := by
      simp [hup, hdn]
    have hne2 : r.player_number ≠ player2.player_number := by
      rw [hn]
      decide
    cases hact2 : (pressed player2.movement_keys.up ||
        pressed player2.movement_keys.down) with
    | false =>
        have hlist : List.filter
            (fun p => pressed p.movement_keys.up || pressed p.movement_keys.down)
            [player1, player2] = [] := by
          simp [List.filter_cons, hact1, hact2]
        rw [hlist, Option.map_some']
        rfl
    | true =>
        have hlist : List.filter
            (fun p => pressed p.movement_keys.up || pressed p.movement_keys.down)
            [player1, player2] = [player2] := by
          simp [List.filter_cons, hact1, hact2]
        rw [hlist, Option.map_some']
        rw [show applyPlayers pressed [player2] e = stepEntity pressed player2 e
          from rfl]
        rw [stepEntity_of_ne pressed player2 e r hr hne2]
  · subst hq
    have hact2 : (pressed player2.movement_keys.up ||
        pressed player2.movement_keys.down) = false := by
      simp [hup, hdn]
    have hne1 : r.player_number ≠ player1.player_number := by
      rw [hn]
      decide
    cases hact1 : (pressed player1.movement_keys.up ||
        pressed player1.movement_keys.down) with
    | false =>
        have hlist : List.filter
            (fun p => pressed p.movement_keys.up || pressed p.movement_keys.down)
            [player1, player2] = [] := by
          simp [List.filter_cons, hact1, hact2]
        rw [hlist, Option.map_some']
        rfl
    | true =>
        have hlist : List.filter
            (fun p => pressed p.movement_keys.up || pressed p.movement_keys.down)
            [player1, player2] = [player1] := by
          simp [List.filter_cons, hact1, hact2]
        rw [hlist, Option.map_some']
        rw [show applyPlayers pressed [player1] e = stepEntity pressed player1 e
          from rfl]
        rw [stepEntity_of_ne pressed player1 e r hr hne1]

/-- C1: in every tick state with the two startup players where player 1's
up-control (`W`) is held and its down-control (`S`) is not, one execution of
`move_racket` sets paddle 1's y-coordinate to its old value plus exactly
`RACKET_SPEED * TIME_STEP`, and that step equals `2` units. -/
theorem spec_C1_player1_up_moves_two (pressed : KeyCode → Bool)
    (w : List Entity) (i : ℕ) (e : Entity) (r : Racket) (t : Transform)
    (hp : playersOf w = [player1, player2])
    (hup : pressed KeyCode.W = true) (hdn : pressed KeyCode.S = false)
    (he : w[i]? = some e) (hr : e.racket = some r) (hn : r.player_number = 1)
    (ht : e.transform = some t) :
    (move_racket pressed w)[i]? =
      some { e with transform := some { t with translation :=
        { t.translation with y := t.translation.y + RACKET_SPEED * TIME_STEP } } }
    ∧ RACKET_SPEED * TIME_STEP = 2 := by
  refine ⟨?_, by norm_num [RACKET_SPEED, TIME_STEP]⟩
  have h := move_racket_canon_moved pressed w i e r t player1 hp (Or.inl rfl)
    (Or.inl hup) he hr hn ht
  rw [h]
  have hif : (if pressed player1.movement_keys.up then (1 : ℚ) else -1) = 1 := by
    rw [show player1.movement_keys.up = KeyCode.W from rfl, hup]
    simp
  rw [hif, one_mul]

/-- C1 witness: the canonical startup rackets with only `W` held; player 1's
racket (index 3) moves up by `RACKET_SPEED * TIME_STEP = 2`. -/
theorem spec_C1_witness :
    (move_racket (fun k => match k with | KeyCode.W => true | _ => false)
        [⟨some player1, none, false, none⟩, ⟨some player2, none, false, none⟩,
         spawn_racket true, spawn_racket false])[3]? =
      some ⟨none, some ⟨1⟩, false,
        some ⟨⟨LEFT_WALL + RACKET_THICCNESS + RACKET_WALL_OFFSET,
          (0 : ℚ) + RACKET_SPEED * TIME_STEP, 0⟩, 90, RACKET_SIZE⟩⟩ ∧
    RACKET_SPEED * TIME_STEP = 2 :=
  spec_C1_player1_up_moves_two
    (fun k => match k with | KeyCode.W => true | _ => false)
    [⟨some player1, none, false, none⟩, ⟨some player2, none, false, none⟩,
     spawn_racket true, spawn_racket false]
    3 (spawn_racket false) ⟨1⟩
    ⟨⟨LEFT_WALL + RACKET_THICCNESS + RACKET_WALL_OFFSET, 0, 0⟩, 90, RACKET_SIZE⟩
    rfl rfl rfl rfl rfl rfl rfl

/-- C2: with the two startup players, a player whose up- and down-controls
are both unheld leaves its paddle entity unchanged after one `move_racket`,
and if no key at all is held the whole entity state is unchanged. -/
theorem spec_C2_idle_players_fixed (pressed : KeyCode → Bool)
    (w : List Entity) (hp : playersOf w = [player1, player2]) :
    (∀ q : Player, q = player1 ∨ q = player2 →
      pressed q.movement_keys.up = false →
      pressed q.movement_keys.down = false →
      ∀ (i : ℕ) (e : Entity) (r : Racket), w[i]? = some e →
        e.racket = some r → r.player_number = q.player_number →
        (move_racket pressed w)[i]? = some e)
    ∧ ((∀ k, pressed k = false) → move_racket pressed w = w) := by
  constructor
  · intro q hq hup hdn i e r he hr hn
    exact move_racket_canon_fixed pressed w i e r q hp hq hup hdn he hr hn
  · intro hall
    have hnil : players_who_moved pressed w = [] := by
      rw [players_who_moved_canon pressed w hp]
      simp [hall]
    rw [move_racket_eq_map, hnil]
    have h1 : applyPlayers pressed ([] : List Player) = id := rfl
    rw [h1, List.map_id]

/-- C2 witness: with no key held, player 1's racket (index 3) is unchanged
and the whole world is unchanged. -/
theorem spec_C2_witness :
    (move_racket (fun _ => false)
        [⟨some player1, none, false, none⟩, ⟨some player2, none, false, none⟩,
         spawn_racket true, spawn_racket false])[3]? =
      some (spawn_racket false) ∧
    move_racket (fun _ => false)
        [⟨some player1, none, false, none⟩, ⟨some player2, none, false, none⟩,
         spawn_racket true, spawn_racket false] =
      [⟨some player1, none, false, none⟩, ⟨some player2, none, false, none⟩,
       spawn_racket true, spawn_racket false] := by
  have h := spec_C2_idle_players_fixed (fun _ => false)
    [⟨some player1, none, false, none⟩, ⟨some player2, none, false, none⟩,
     spawn_racket true, spawn_racket false] rfl
  exact ⟨h.1 player1 (Or.inl rfl) rfl rfl 3 (spawn_racket false) ⟨1⟩ rfl rfl rfl,
    h.2 (fun k => rfl)⟩

/-- C3: with the two startup players, if both the up- and the down-control of
a player are held, one `move_racket` moves that player's paddle upward: the
new y is the old y plus the per-tick step (direction `+1`; up wins), so y
strictly increases. -/
theorem spec_C3_up_wins_tie (pressed : KeyCode → Bool) (w : List Entity)
    (q : Player) (i : ℕ) (e : Entity) (r : Racket) (t : Transform)
    (hp : playersOf w = [player1, player2])
    (hq : q = player1 ∨ q = player2)
    (hup : pressed q.movement_keys.up = true)
    (hdn : pressed q.movement_keys.down = true)
    (he : w[i]? = some e) (hr : e.racket = some r)
    (hn : r.player_number = q.player_number) (ht : e.transform = some t) :
    (move_racket pressed w)[i]? =
      some { e with transform := some { t with translation :=
        { t.translation with y := t.translation.y + RACKET_SPEED * TIME_STEP } } }
    ∧ t.translation.y < t.translation.y + RACKET_SPEED * TIME_STEP := by
  have hpos : (0 : ℚ) < RACKET_SPEED * TIME_STEP := by
    norm_num [RACKET_SPEED, TIME_STEP]
  refine ⟨?_, by linarith⟩
  have h := move_racket_canon_moved pressed w i e r t q hp hq (Or.inl hup)
    he hr hn ht
  rw [h]
  have hif : (if pressed q.movement_keys.up then (1 : ℚ) else -1) = 1 := by
    rw [hup]
    simp
  rw [hif, one_mul]

/-- C3 witness: every key held, player 1's racket (index 3) moves up by the
per-tick step. -/
theorem spec_C3_witness :
    (move_racket (fun _ => true)
        [⟨some player1, none, false, none⟩, ⟨some player2, none, false, none⟩,
         spawn_racket true, spawn_racket false])[3]? =
      some ⟨none, some ⟨1⟩, false,
        some ⟨⟨LEFT_WALL + RACKET_THICCNESS + RACKET_WALL_OFFSET,
          (0 : ℚ) + RACKET_SPEED * TIME_STEP, 0⟩, 90, RACKET_SIZE⟩⟩ ∧
    (0 : ℚ) < 0 + RACKET_SPEED * TIME_STEP :=
  spec_C3_up_wins_tie (fun _ => true)
    [⟨some player1, none, false, none⟩, ⟨some player2, none, false, none⟩,
     spawn_racket true, spawn_racket false]
    player1 3 (spawn_racket false) ⟨1⟩
    ⟨⟨LEFT_WALL + RACKET_THICCNESS + RACKET_WALL_OFFSET, 0, 0⟩, 90, RACKET_SIZE⟩
    rfl (Or.inl rfl) rfl rfl rfl rfl rfl rfl

/-- C4: with the two startup players, whatever player 1's controls do, if
neither of player 2's controls (`Up`, `Down`) is held then player 2's paddle
entity is unchanged by one `move_racket`: the two paddles move
independently. -/
theorem spec_C4_players_independent (pressed : KeyCode → Bool)
    (w : List Entity) (i : ℕ) (e : Entity) (r : Racket)
    (hp : playersOf w = [player1, player2])
    (hup2 : pressed KeyCode.Up = false) (hdn2 : pressed KeyCode.Down = false)
    (he : w[i]? = some e) (hr : e.racket = some r)
    (hn : r.player_number = 2) :
    (move_racket pressed w)[i]? = some e :=
  move_racket_canon_fixed pressed w i e r player2 hp (Or.inr rfl) hup2 hdn2
    he hr hn

/-- C4 witness: with only `W` held, player 2's racket (index 2) is
unchanged. -/
theorem spec_C4_witness :
    (move_racket (fun k => match k with | KeyCode.W => true | _ => false)
        [⟨some player1, none, false, none⟩, ⟨some player2, none, false, none⟩,
         spawn_racket true, spawn_racket false])[2]? =
      some (spawn_racket true) :=
  spec_C4_players_independent
    (fun k => match k with | KeyCode.W => true | _ => false)
    [⟨some player1, none, false, none⟩, ⟨some player2, none, false, none⟩,
     spawn_racket true, spawn_racket false]
    2 (spawn_racket true) ⟨2⟩ rfl rfl rfl rfl rfl rfl

/-- C5: `WallLocation::position` maps Left to `(LEFT_WALL, 0) = (-450, 0)`,
Right to `(RIGHT_WALL, 0) = (450, 0)`, Bottom to `(0, BOTTOM_WALL) =
(0, -250)` and Top to `(0, TOP_WALL) = (0, 250)`; Left/Right walls have
`position().y = 0` and Top/Bottom walls have `position().x = 0`. -/
theorem spec_C5_wall_positions :
    WallLocation.position WallLocation.Left = ⟨LEFT_WALL, 0⟩ ∧
    WallLocation.position WallLocation.Right = ⟨RIGHT_WALL, 0⟩ ∧
    WallLocation.position WallLocation.Bottom = ⟨0, BOTTOM_WALL⟩ ∧
    WallLocation.position WallLocation.Top = ⟨0, TOP_WALL⟩ ∧
    WallLocation.position WallLocation.Left = ⟨-450, 0⟩ ∧
    WallLocation.position WallLocation.Right = ⟨450, 0⟩ ∧
    WallLocation.position WallLocation.Bottom = ⟨0, -250⟩ ∧
    WallLocation.position WallLocation.Top = ⟨0, 250⟩ ∧
    (WallLocation.position WallLocation.Left).y = 0 ∧
    (WallLocation.position WallLocation.Right).y = 0 ∧
    (WallLocation.position WallLocation.Top).x = 0 ∧
    (WallLocation.position WallLocation.Bottom).x = 0 := by
  refine ⟨rfl, rfl, rfl, rfl, ?_, ?_, ?_, ?_, rfl, rfl, rfl, rfl⟩ <;>
    simp [WallLocation.position, LEFT_WALL, RIGHT_WALL, TOP_WALL, BOTTOM_WALL]

/-- C6: `WallLocation::size` returns, for Left/Right walls, width
`WALL_THICKNESS` and height `(TOP_WALL - BOTTOM_WALL) + WALL_THICKNESS`, and
for Top/Bottom walls, width `(RIGHT_WALL - LEFT_WALL) + WALL_THICKNESS` and
height `WALL_THICKNESS`; with the program's constants the Left wall size is
`(30, 530)` and the Top wall size is `(930, 30)`. -/
theorem spec_C6_wall_sizes :
    WallLocation.size WallLocation.Left =
      some ⟨WALL_THICKNESS, (TOP_WALL - BOTTOM_WALL) + WALL_THICKNESS⟩ ∧
    WallLocation.size WallLocation.Right =
      some ⟨WALL_THICKNESS, (TOP_WALL - BOTTOM_WALL) + WALL_THICKNESS⟩ ∧
    WallLocation.size WallLocation.Top =
      some ⟨(RIGHT_WALL - LEFT_WALL) + WALL_THICKNESS, WALL_THICKNESS⟩ ∧
    WallLocation.size WallLocation.Bottom =
      some ⟨(RIGHT_WALL - LEFT_WALL) + WALL_THICKNESS, WALL_THICKNESS⟩ ∧
    WallLocation.size WallLocation.Left = some ⟨30, 530⟩ ∧
    WallLocation.size WallLocation.Top = some ⟨930, 30⟩ := by
  refine ⟨?_, ?_, ?_, ?_, ?_, ?_⟩
  all_goals
    simp [WallLocation.size, WALL_THICKNESS, TOP_WALL, BOTTOM_WALL,
      RIGHT_WALL, LEFT_WALL]
  all_goals norm_num

/-- C7: under the program's fixed arena constants the two startup assertions
in `WallLocation::size` (positive arena height and width) hold, so `size`
never aborts, and every wall's width and height are strictly positive. -/
theorem spec_C7_size_never_aborts :
    (0 < TOP_WALL - BOTTOM_WALL ∧ 0 < RIGHT_WALL - LEFT_WALL) ∧
    ∀ w : WallLocation, ∃ s : Vec2,
      WallLocation.size w = some s ∧ 0 < s.x ∧ 0 < s.y := by
  have hLR : ∀ w : WallLocation, w = WallLocation.Left ∨ w = WallLocation.Right →
      WallLocation.size w = some ⟨30, 530⟩ := by
    rintro w (rfl | rfl) <;>
      · simp [WallLocation.size, WALL_THICKNESS, TOP_WALL, BOTTOM_WALL,
          RIGHT_WALL, LEFT_WALL]
        norm_num
  have hTB : ∀ w : WallLocation, w = WallLocation.Top ∨ w = WallLocation.Bottom →
      WallLocation.size w = some ⟨930, 30⟩ := by
    rintro w (rfl | rfl) <;>
      · simp [WallLocation.size, WALL_THICKNESS, TOP_WALL, BOTTOM_WALL,
          RIGHT_WALL, LEFT_WALL]
        norm_num
  refine ⟨⟨by norm_num [TOP_WALL, BOTTOM_WALL], by norm_num [RIGHT_WALL, LEFT_WALL]⟩, ?_⟩
  intro w
  cases w with
  | Left => exact ⟨⟨30, 530⟩, hLR _ (Or.inl rfl), by norm_num, by norm_num⟩
  | Right => exact ⟨⟨30, 530⟩, hLR _ (Or.inr rfl), by norm_num, by norm_num⟩
  | Top => exact ⟨⟨930, 30⟩, hTB _ (Or.inl rfl), by norm_num, by norm_num⟩
  | Bottom => exact ⟨⟨930, 30⟩, hTB _ (Or.inr rfl), by norm_num, by norm_num⟩

/-- The per-entity update commutes with forgetting y: it changes at most the
y-translation of an entity. -/
theorem eraseY_stepEntity (pressed : KeyCode → Bool) (p : Player) (e : Entity) :
    eraseY (stepEntity pressed p e) = eraseY e := by
  unfold stepEntity
  rcases e with ⟨pl, r, b, t⟩
  rcases r with _ | r
  · rfl
  · rcases t with _ | t
    · rfl
    · simp only
      split
      · simp [eraseY, Transform.eraseY]
      · rfl

/-- Sequences of per-entity updates change at most the y-translation. -/
theorem eraseY_applyPlayers (pressed : KeyCode → Bool) (ps : List Player)
    (e : Entity) : eraseY (applyPlayers pressed ps e) = eraseY e := by
  induction ps generalizing e with
  | nil => rfl
  | cons p ps ih =>
      rw [show applyPlayers pressed (p :: ps) e =
        applyPlayers pressed ps (stepEntity pressed p e) from rfl]
      rw [ih (stepEntity pressed p e), eraseY_stepEntity]

/-- C8: one execution of `move_racket` changes at most the y-translations of
paddle transforms: erasing every y-translation commutes with the update, so
x, z, rotation and scale of every entity are unchanged; iterated over any
sequence of ticks, paddle horizontal position is fixed for the session. -/
theorem spec_C8_only_y_changes :
    (∀ (pressed : KeyCode → Bool) (w : List Entity),
        (move_racket pressed w).map eraseY = w.map eraseY) ∧
    (∀ (inputs : List (KeyCode → Bool)) (w : List Entity),
        (ticks inputs w).map eraseY = w.map eraseY) := by
  have hone : ∀ (pressed : KeyCode → Bool) (w : List Entity),
      (move_racket pressed w).map eraseY = w.map eraseY := by
    intro pressed w
    rw [move_racket_eq_map, List.map_map]
    have hfun : eraseY ∘ applyPlayers pressed (players_who_moved pressed w) =
        eraseY :=
      funext (fun e => eraseY_applyPlayers pressed _ e)
    rw [hfun]
  refine ⟨hone, ?_⟩
  intro inputs
  induction inputs with
  | nil => intro w; rfl
  | cons pr inputs ih =>
      intro w
      rw [show ticks (pr :: inputs) w = ticks inputs (move_racket pr w) from rfl]
      rw [ih (move_racket pr w), hone]

/-- C9: if an active player (one with a control held) has no racket entity
matching its `player_number`, that player's pass of the movement update is a
total function that performs no change at all: a silent no-op, not a
crash. -/
theorem spec_C9_missing_paddle_noop (pressed : KeyCode → Bool) (q : Player)
    (w : List Entity)
    (hact : pressed q.movement_keys.up = true ∨
      pressed q.movement_keys.down = true)
    (hnone : ∀ e ∈ w, ∀ r : Racket, e.racket = some r →
      r.player_number ≠ q.player_number) :
    move_racket_player pressed q w = w := by
  have hfix : ∀ e ∈ w, stepEntity pressed q e = e := by
    intro e he
    rcases h : e.racket with _ | r
    · exact stepEntity_of_racket_none pressed q e h
    · exact stepEntity_of_ne pressed q e r h (hnone e he r h)
  unfold move_racket_player
  induction w with
  | nil => rfl
  | cons a l ih =>
      rw [List.map_cons]
      rw [hfix a (List.mem_cons_self a l)]
      rw [ih (fun e he r hr => hnone e (List.mem_cons_of_mem a he) r hr)
        (fun e he => hfix e (List.mem_cons_of_mem a he))]

/-- C9 witness: player 1 is active under `W` but the one-entity world has no
racket at all; its pass changes nothing. -/
theorem spec_C9_witness :
    move_racket_player (fun k => match k with | KeyCode.W => true | _ => false)
      player1 [⟨some player1, none, false, none⟩] =
      [⟨some player1, none, false, none⟩] :=
  spec_C9_missing_paddle_noop
    (fun k => match k with | KeyCode.W => true | _ => false) player1
    [⟨some player1, none, false, none⟩] (Or.inl rfl)
    (by
      intro e he r hr
      rw [List.mem_singleton] at he
      subst he
      simp at hr)

/-- Any sequence of ticks fixes every entity that has no racket component. -/
theorem ticks_fix_racket_none (inputs : List (KeyCode → Bool))
    (w : List Entity) (i : ℕ) (e : Entity) (he : w[i]? = some e)
    (hrack : e.racket = none) : (ticks inputs w)[i]? = some e := by
  induction inputs generalizing w with
  | nil => exact he
  | cons pr inputs ih =>
      have hstep : (move_racket pr w)[i]? = some e := by
        rw [move_racket_getElem, he, Option.map_some']
        rw [applyPlayers_of_racket_none pr _ e hrack]
      rw [show ticks (pr :: inputs) w = ticks inputs (move_racket pr w)
        from rfl]
      exact ih (move_racket pr w) hstep

/-- C10: `move_racket` never modifies an entity without a `Racket`
component, over any sequence of ticks with any inputs; in particular, from
the startup world produced by `setup`, the ball keeps its spawn transform
(translation `(0, 0, 1)`, scale `(30, 30, 0)`) and the four walls keep their
spawn transforms forever. -/
theorem spec_C10_non_rackets_frozen :
    (∀ (inputs : List (KeyCode → Bool)) (w : List Entity) (i : ℕ) (e : Entity),
        w[i]? = some e → e.racket = none → (ticks inputs w)[i]? = some e)
    ∧ ∃ w0 : List Entity, setup = some w0 ∧
        spawn_ball.transform = some ⟨⟨0, 0, 1⟩, 0, ⟨30, 30, 0⟩⟩ ∧
        ∀ inputs : List (KeyCode → Bool),
          (ticks inputs w0)[4]? = some spawn_ball ∧
          (ticks inputs w0)[5]? = WallBundle.new WallLocation.Left ∧
          (ticks inputs w0)[6]? = WallBundle.new WallLocation.Right ∧
          (ticks inputs w0)[7]? = WallBundle.new WallLocation.Bottom ∧
          (ticks inputs w0)[8]? = WallBundle.new WallLocation.Top := by
  have hL : WallLocation.size WallLocation.Left = some ⟨30, 530⟩ := by
    simp [WallLocation.size, WALL_THICKNESS, TOP_WALL, BOTTOM_WALL,
      RIGHT_WALL, LEFT_WALL]
    norm_num
  have hR : WallLocation.size WallLocation.Right = some ⟨30, 530⟩ := by
    simp [WallLocation.size, WALL_THICKNESS, TOP_WALL, BOTTOM_WALL,
      RIGHT_WALL, LEFT_WALL]
    norm_num
  have hB : WallLocation.size WallLocation.Bottom = some ⟨930, 30⟩ := by
    simp [WallLocation.size, WALL_THICKNESS, TOP_WALL, BOTTOM_WALL,
      RIGHT_WALL, LEFT_WALL]
    norm_num
  have hT : WallLocation.size WallLocation.Top = some ⟨930, 30⟩ := by
    simp [WallLocation.size, WALL_THICKNESS, TOP_WALL, BOTTOM_WALL,
      RIGHT_WALL, LEFT_WALL]
    norm_num
  have hWL : WallBundle.new WallLocation.Left =
      some ⟨none, none, false, some ⟨⟨LEFT_WALL, 0, 0⟩, 0, ⟨30, 530, 1⟩⟩⟩ := by
    unfold WallBundle.new
    rw [hL]
    rfl
  have hWR : WallBundle.new WallLocation.Right =
      some ⟨none, none, false, some ⟨⟨RIGHT_WALL, 0, 0⟩, 0, ⟨30, 530, 1⟩⟩⟩ := by
    unfold WallBundle.new
    rw [hR]
    rfl
  have hWB : WallBundle.new WallLocation.Bottom =
      some ⟨none, none, false, some ⟨⟨0, BOTTOM_WALL, 0⟩, 0, ⟨930, 30, 1⟩⟩⟩ := by
    unfold WallBundle.new
    rw [hB]
    rfl
  have hWT : WallBundle.new WallLocation.Top =
      some ⟨none, none, false, some ⟨⟨0, TOP_WALL, 0⟩, 0, ⟨930, 30, 1⟩⟩⟩ := by
    unfold WallBundle.new
    rw [hT]
    rfl
  have hsetup : setup =
      some [⟨some player1, none, false, none⟩,
            ⟨some player2, none, false, none⟩,
            spawn_racket true,
            spawn_racket false,
            spawn_ball,
            ⟨none, none, false, some ⟨⟨LEFT_WALL, 0, 0⟩, 0, ⟨30, 530, 1⟩⟩⟩,
            ⟨none, none, false, some ⟨⟨RIGHT_WALL, 0, 0⟩, 0, ⟨30, 530, 1⟩⟩⟩,
            ⟨none, none, false, some ⟨⟨0, BOTTOM_WALL, 0⟩, 0, ⟨930, 30, 1⟩⟩⟩,
            ⟨none, none, false, some ⟨⟨0, TOP_WALL, 0⟩, 0, ⟨930, 30, 1⟩⟩⟩] := by
    unfold setup
    rw [hWL, hWR, hWB, hWT]
    rfl
  refine ⟨ticks_fix_racket_none, _, hsetup, rfl, ?_⟩
  intro inputs
  refine ⟨ticks_fix_racket_none inputs _ 4 spawn_ball rfl rfl, ?_, ?_, ?_, ?_⟩
  · rw [hWL]
    exact ticks_fix_racket_none inputs _ 5 _ rfl rfl
  · rw [hWR]
    exact ticks_fix_racket_none inputs _ 6 _ rfl rfl
  · rw [hWB]
    exact ticks_fix_racket_none inputs _ 7 _ rfl rfl
  · rw [hWT]
    exact ticks_fix_racket_none inputs _ 8 _ rfl rfl

/-- C10 witness: a one-entity world holding only the ball is unchanged by a
tick in which every key is held. -/
theorem spec_C10_witness :
    (ticks [fun _ => true]
        [⟨none, none, true, some ⟨⟨0, 0, 1⟩, 0, ⟨30, 30, 0⟩⟩⟩])[0]? =
      some ⟨none, none, true, some ⟨⟨0, 0, 1⟩, 0, ⟨30, 30, 0⟩⟩⟩ :=
  spec_C10_non_rackets_frozen.1 [fun _ => true]
    [⟨none, none, true, some ⟨⟨0, 0, 1⟩, 0, ⟨30, 30, 0⟩⟩⟩] 0
    ⟨none, none, true, some ⟨⟨0, 0, 1⟩, 0, ⟨30, 30, 0⟩⟩⟩ rfl rfl

end Pingis
